import Mathlib

/-!
Shallow embedding of the contributor-impact scoring engine
(src/frontend/src/lib/analyzer.ts) and of the hybrid data-merging layer
(src/frontend/src/lib/github.ts).

Modelling conventions:

* JS numbers are modelled as exact rationals (ℚ).
* JS objects used as string-keyed maps (Record<string, T>) are modelled as
  association lists in insertion order with distinct keys; Object.keys and
  Object.values iterate in that order, and writing to an existing key keeps
  its position while writing to a fresh key appends.
* Date strings are abstracted to their parse results: a field the code parses
  with new Date(s) is modelled as the epoch-millisecond value (Option Int when
  unparseable strings matter, Int when the code guarantees parseability).
  ISO timestamp strings are in bijection with their millisecond values, so
  string equality of such fields coincides with equality of the model values.
* The dedup key template author + colon + merged_at of mergeData is modelled
  as the pair (author_username, merged_at); GitHub logins cannot contain a
  colon, so the string key and the pair are in bijection.
* Math.round in JS rounds half toward positive infinity: x maps to ⌊x + 1/2⌋.
* Array.prototype.sort is stable (ES2019); it is modelled by List.mergeSort,
  which is also stable.
-/

/-- JS Math.round: round half toward positive infinity. -/
def jsRound (q : ℚ) : ℤ := ⌊q + 1/2⌋

/-- Math.round(x * 10) / 10 — round to one decimal place. -/
def round1 (q : ℚ) : ℚ := (jsRound (q * 10) : ℚ) / 10

/-- Math.round(x * 100) / 100 — round to two decimal places. -/
def round2 (q : ℚ) : ℚ := (jsRound (q * 100) : ℚ) / 100

/-- Math.max(...xs) for a nonempty spread.  (On an empty array JS yields
-Infinity, which has no ℚ counterpart; the only call site guards the list to
be nonempty, so the [] case here is unreachable and returns 0.) -/
def jsMaxList : List ℚ → ℚ
  | [] => 0
  | x :: xs => xs.foldl max x

/-- Math.max(...xs, 1): the maximum of the elements and 1. -/
def jsMaxList1 (l : List ℚ) : ℚ := l.foldl max 1

/-- JS a || b on strings: b when a is the empty string (falsy), else a. -/
def jsOr (a b : String) : String := if a = "" then b else a

-- ── analyzer.ts / github.ts shared types ─────────────────────────────

/-- interface ContributorData (identical in analyzer.ts and github.ts). -/
structure ContributorData where
  name : String
  avatar_url : String
  prs_created : ℚ
  total_files_changed : ℚ
  total_additions : ℚ
  total_deletions : ℚ
  avg_time_to_merge_hours : ℚ
  reviews_given : ℚ
  prs_reviewed : ℚ
deriving DecidableEq

/-- interface PRData (analyzer.ts).  created_at and merged_at are date
strings, abstracted to their parse results (none = NaN date). -/
structure PRData where
  author_username : String
  title : String
  files_changed : ℚ
  additions : ℚ
  deletions : ℚ
  time_to_merge_hours : ℚ
  created_at : Option Int
  merged_at : Option Int
  reviews_count : ℚ
  reviewers : List String
deriving DecidableEq

/-- The stats sub-object of interface EngineerScore. -/
structure EngineerStats where
  prs_created : ℚ
  reviews_given : ℚ
  files_changed : ℚ
  avg_merge_time : ℚ
deriving DecidableEq

/-- interface EngineerScore (analyzer.ts). -/
structure EngineerScore where
  username : String
  name : String
  avatar_url : String
  impact_score : ℚ
  quality_score : ℚ
  velocity_score : ℚ
  collaboration_score : ℚ
  leadership_score : ℚ
  stats : EngineerStats
deriving DecidableEq

/-- interface PopulationStats (analyzer.ts). -/
structure PopulationStats where
  maxPrs : ℚ
  maxReviewsGiven : ℚ
  maxFilesChanged : ℚ
  maxAvgFilesPerPr : ℚ
  maxCombined : ℚ
  p90MergeHours : ℚ
deriving DecidableEq

-- ── computePopulationStats (analyzer.ts lines 80-121) ────────────────

/-- computePopulationStats: population maxima and the p90 merge time over
eligible contributors (prs_created ≥ 2).  Math.floor(length * 0.9) on a
natural length is length * 9 / 10 in Nat division. -/
def computePopulationStats (contributors : List (String × ContributorData)) :
    PopulationStats :=
  let eligible := (contributors.map Prod.snd).filter
    (fun c => decide (2 ≤ c.prs_created))
  if eligible.length = 0 then
    { maxPrs := 1, maxReviewsGiven := 1, maxFilesChanged := 1,
      maxAvgFilesPerPr := 1, maxCombined := 1, p90MergeHours := 72 }
  else
    let mergeTimes :=
      ((eligible.filter (fun c => decide (0 < c.avg_time_to_merge_hours))).map
        (fun c => c.avg_time_to_merge_hours)).mergeSort (fun a b => decide (a ≤ b))
    let p90Idx := mergeTimes.length * 9 / 10
    let p90MergeHours := (mergeTimes.get? p90Idx).getD 72
    { maxPrs := jsMaxList (eligible.map (fun c => c.prs_created)),
      maxReviewsGiven := jsMaxList1 (eligible.map (fun c => c.reviews_given)),
      maxFilesChanged := jsMaxList1 (eligible.map (fun c => c.total_files_changed)),
      maxAvgFilesPerPr := jsMaxList1 (eligible.map
        (fun c => c.total_files_changed / max c.prs_created 1)),
      maxCombined := jsMaxList1 (eligible.map
        (fun c => c.prs_created + c.reviews_given)),
      p90MergeHours := p90MergeHours }

-- ── Dimension scorers (analyzer.ts lines 147-222) ────────────────────

/-- calculateQualityScore: 0.5 merge speed + 0.3 PR size + 0.2 review activity. -/
def calculateQualityScore (c : ContributorData) (pop : PopulationStats) : ℚ :=
  let mergeTime := min c.avg_time_to_merge_hours pop.p90MergeHours
  let mergeScore := 100 * (1 - mergeTime / pop.p90MergeHours)
  let avgChanges := (c.total_additions + c.total_deletions) / max c.prs_created 1
  let sizeScore :=
    if 200 ≤ avgChanges ∧ avgChanges ≤ 500 then (100 : ℚ)
    else if avgChanges < 200 then 50 + avgChanges / 200 * 50
    else max 50 (100 - (avgChanges - 500) / 20)
  let reviewActivity := min (c.reviews_given / pop.maxReviewsGiven) 1 * 100
  0.5 * mergeScore + 0.3 * sizeScore + 0.2 * reviewActivity

/-- calculateVelocityScore: 0.4 consistency + 0.6 complexity. -/
def calculateVelocityScore (c : ContributorData) (pop : PopulationStats) : ℚ :=
  let consistencyScore := min (c.prs_created / pop.maxPrs) 1 * 100
  let avgFiles := c.total_files_changed / max c.prs_created 1
  let complexityScore := min (avgFiles / pop.maxAvgFilesPerPr) 1 * 100
  0.4 * consistencyScore + 0.6 * complexityScore

/-- calculateCollaborationScore: 0.7 review volume + 0.3 review depth. -/
def calculateCollaborationScore (c : ContributorData) (pop : PopulationStats) : ℚ :=
  let reviewVolume := min (c.reviews_given / pop.maxReviewsGiven) 1 * 100
  let reviewDepth :=
    if 0 < c.prs_reviewed then
      min (c.reviews_given / c.prs_reviewed / 3) 1 * 100
    else (0 : ℚ)
  0.7 * reviewVolume + 0.3 * reviewDepth

/-- calculateLeadershipScore: 0.6 ownership + 0.4 balance. -/
def calculateLeadershipScore (c : ContributorData) (pop : PopulationStats) : ℚ :=
  let ownership := min (c.total_files_changed / pop.maxFilesChanged) 1 * 100
  let balance :=
    if 0 < c.prs_created ∧ 0 < c.reviews_given then
      min ((c.prs_created + c.reviews_given) / pop.maxCombined) 1 * 100
    else (0 : ℚ)
  0.6 * ownership + 0.4 * balance

-- ── scoreContributor and ranking (analyzer.ts lines 224-279) ─────────

/-- scoreContributor: the four dimensions, the weighted composite, all
rounded to one decimal, plus the denormalized stats snapshot. -/
def scoreContributor (username : String) (c : ContributorData)
    (pop : PopulationStats) : EngineerScore :=
  let quality := calculateQualityScore c pop
  let velocity := calculateVelocityScore c pop
  let collaboration := calculateCollaborationScore c pop
  let leadership := calculateLeadershipScore c pop
  let impact := 0.3 * quality + 0.3 * velocity + 0.2 * collaboration
    + 0.2 * leadership
  { username := username
    name := c.name
    avatar_url := c.avatar_url
    impact_score := round1 impact
    quality_score := round1 quality
    velocity_score := round1 velocity
    collaboration_score := round1 collaboration
    leadership_score := round1 leadership
    stats :=
      { prs_created := c.prs_created
        reviews_given := c.reviews_given
        files_changed := c.total_files_changed
        avg_merge_time := c.avg_time_to_merge_hours } }

/-- analyzeEngineers: score every contributor with prs_created ≥ 2 (the loop
skips prs_created < 2) and sort descending by impact score with a stable
sort.  The prs argument is part of the signature but unused by the body,
exactly as in the source. -/
def analyzeEngineers (contributors : List (String × ContributorData))
    (prs : List PRData) : List EngineerScore :=
  let pop := computePopulationStats contributors
  let scores := (contributors.filter
      (fun p => !decide (p.2.prs_created < 2))).map
    (fun p => scoreContributor p.1 p.2 pop)
  scores.mergeSort (fun a b => decide (b.impact_score ≤ a.impact_score))

/-- analyzeTopEngineers: the first limit entries of the ranked list
(default limit 5 at the call sites). -/
def analyzeTopEngineers (contributors : List (String × ContributorData))
    (prs : List PRData) (limit : Nat) : List EngineerScore :=
  (analyzeEngineers contributors prs).take limit

-- ── github.ts types ──────────────────────────────────────────────────

/-- The author objects of the GraphQL payload: login and avatarUrl. -/
structure Author where
  login : String
  avatarUrl : String
deriving DecidableEq

/-- interface RawPR (github.ts).  createdAt and mergedAt are date strings
abstracted to their parse results; reviews holds the author of each review
node (null authors included). -/
structure RawPR where
  number : Int
  title : String
  createdAt : Option Int
  mergedAt : Option Int
  additions : ℚ
  deletions : ℚ
  changedFiles : ℚ
  author : Option Author
  reviews : List (Option Author)
deriving DecidableEq

/-- interface PROutput (github.ts).  created_at and merged_at are date
strings abstracted to epoch milliseconds (aggregateRawPRs only emits records
whose dates parsed). -/
structure PROutput where
  author_username : String
  title : String
  files_changed : ℚ
  additions : ℚ
  deletions : ℚ
  time_to_merge_hours : ℚ
  created_at : Int
  merged_at : Int
  reviews_count : ℚ
  reviewers : List String
deriving DecidableEq

/-- interface GitHubData (github.ts). -/
structure GitHubData where
  fetched_at : String
  repo : String
  contributors : List (String × ContributorData)
  prs : List PROutput
deriving DecidableEq

/-- The overlay shape taken by mergeData: contributors plus prs. -/
structure OverlayData where
  contributors : List (String × ContributorData)
  prs : List PROutput
deriving DecidableEq

-- ── Record-update helpers ────────────────────────────────────────────

/-- Writing m[k] = v on a JS record: replace the first entry with key k in
place, or append a fresh entry when k is absent. -/
def setR {κ α : Type} [DecidableEq κ] : List (κ × α) → κ → α → List (κ × α)
  | [], k, v => [(k, v)]
  | (k0, v0) :: rest, k, v =>
    if k0 = k then (k, v) :: rest else (k0, v0) :: setR rest k v

/-- JS Set.add on a list model of a Set: append when absent. -/
def jsSetAdd {α : Type} [DecidableEq α] (s : List α) (x : α) : List α :=
  if x ∈ s then s else s ++ [x]

/-- [...new Set(xs)]: deduplicate, keeping first occurrences in order. -/
def jsSetOfList {α : Type} [DecidableEq α] (xs : List α) : List α :=
  xs.foldl jsSetAdd []

-- ── aggregateRawPRs (github.ts lines 275-385) ────────────────────────

/-- The per-contributor accumulator record of aggregateRawPRs. -/
structure AccEntry where
  name : String
  avatar_url : String
  prs_created : ℚ
  total_files_changed : ℚ
  total_additions : ℚ
  total_deletions : ℚ
  merge_hours : List ℚ
  reviews_given : ℚ
  prs_reviewed : List Int
deriving DecidableEq

/-- A fresh accumulator entry for an identity first seen as author/reviewer. -/
def freshAcc (login avatarUrl : String) : AccEntry :=
  { name := login, avatar_url := avatarUrl, prs_created := 0,
    total_files_changed := 0, total_additions := 0, total_deletions := 0,
    merge_hours := [], reviews_given := 0, prs_reviewed := [] }

/-- The running state of the aggregation loop: cMap and the prs output. -/
structure AggState where
  cMap : List (String × AccEntry)
  prs : List PROutput
deriving DecidableEq

/-- One review node of the inner loop: skip null and bot reviewers, record
the reviewer login, bump reviews_given, add the PR number to the reviewed
set. -/
def aggReviewStep (prNumber : Int)
    (st : List (String × AccEntry) × List String) (node : Option Author) :
    List (String × AccEntry) × List String :=
  match node with
  | none => st
  | some r =>
    if r.login.endsWith "[bot]" then st
    else
      let cMap := st.1
      let cMap :=
        if (List.lookup r.login cMap).isNone then
          setR cMap r.login (freshAcc r.login r.avatarUrl)
        else cMap
      let entry := (List.lookup r.login cMap).getD (freshAcc r.login r.avatarUrl)
      let cMap := setR cMap r.login
        { entry with reviews_given := entry.reviews_given + 1,
                     prs_reviewed := jsSetAdd entry.prs_reviewed prNumber }
      (cMap, st.2 ++ [r.login])

/-- One iteration of the main loop of aggregateRawPRs: drop records with a
missing or bot author or an unparseable timestamp, otherwise fold the record
into the contributor map and emit the PROutput record. -/
def aggStep (st : AggState) (pr : RawPR) : AggState :=
  match pr.author with
  | none => st
  | some author =>
    if author.login.endsWith "[bot]" then st
    else
      match pr.createdAt, pr.mergedAt with
      | some created, some merged =>
        let username := author.login
        let mergeHours := ((merged - created : Int) : ℚ) / (1000 * 3600)
        let cMap :=
          if (List.lookup username st.cMap).isNone then
            setR st.cMap username (freshAcc username author.avatarUrl)
          else st.cMap
        let c := (List.lookup username cMap).getD (freshAcc username author.avatarUrl)
        let cMap := setR cMap username
          { c with prs_created := c.prs_created + 1,
                   total_files_changed := c.total_files_changed + pr.changedFiles,
                   total_additions := c.total_additions + pr.additions,
                   total_deletions := c.total_deletions + pr.deletions,
                   merge_hours := c.merge_hours ++ [mergeHours] }
        let inner := pr.reviews.foldl (aggReviewStep pr.number) (cMap, [])
        let out : PROutput :=
          { author_username := username
            title := pr.title
            files_changed := pr.changedFiles
            additions := pr.additions
            deletions := pr.deletions
            time_to_merge_hours := round2 mergeHours
            created_at := created
            merged_at := merged
            reviews_count := (pr.reviews.length : ℚ)
            reviewers := jsSetOfList inner.2 }
        { cMap := inner.1, prs := st.prs ++ [out] }
      | _, _ => st

/-- The final pass of aggregateRawPRs: turn an accumulator entry into a
ContributorData, averaging the collected merge hours (0 when none). -/
def finalizeAcc (d : AccEntry) : ContributorData :=
  let avgMerge :=
    if 0 < d.merge_hours.length then
      d.merge_hours.foldl (fun a b => a + b) 0 / (d.merge_hours.length : ℚ)
    else 0
  { name := d.name, avatar_url := d.avatar_url, prs_created := d.prs_created,
    total_files_changed := d.total_files_changed,
    total_additions := d.total_additions,
    total_deletions := d.total_deletions,
    avg_time_to_merge_hours := round2 avgMerge,
    reviews_given := d.reviews_given, prs_reviewed := (d.prs_reviewed.length : ℚ) }

/-- aggregateRawPRs: fold the raw records through aggStep, then finalize
every accumulator entry in insertion order. -/
def aggregateRawPRs (rawPRs : List RawPR) :
    List (String × ContributorData) × List PROutput :=
  let st := rawPRs.foldl aggStep { cMap := [], prs := [] }
  (st.cMap.map (fun p => (p.1, finalizeAcc p.2)), st.prs)

-- ── mergeData (github.ts lines 391-438) ──────────────────────────────

/-- The merged record for an identity present in both base and overlay:
counters are summed and the average merge-hours is the PR-count-weighted
mean of the two averages, rounded to two decimals (0 when both PR counts
are 0). -/
def combineContrib (base overlayContrib : ContributorData) : ContributorData :=
  let totalMergeHours :=
    base.avg_time_to_merge_hours * base.prs_created +
    overlayContrib.avg_time_to_merge_hours * overlayContrib.prs_created
  let totalPrs := base.prs_created + overlayContrib.prs_created
  { name := jsOr overlayContrib.name base.name
    avatar_url := jsOr overlayContrib.avatar_url base.avatar_url
    prs_created := totalPrs
    total_files_changed :=
      base.total_files_changed + overlayContrib.total_files_changed
    total_additions := base.total_additions + overlayContrib.total_additions
    total_deletions := base.total_deletions + overlayContrib.total_deletions
    avg_time_to_merge_hours :=
      if 0 < totalPrs then round2 (totalMergeHours / totalPrs) else 0
    reviews_given := base.reviews_given + overlayContrib.reviews_given
    prs_reviewed := base.prs_reviewed + overlayContrib.prs_reviewed }

/-- mergeData: drop overlay PRs whose (author_username, merged_at) dedup key
already occurs in the base, fold overlay contributors onto the base map
(inserting fresh identities, combining existing ones), and re-sort the
concatenated PR list descending by merge timestamp with a stable sort.
The fetched_at field is new Date().toISOString() in the source; the current
time is passed here as the explicit argument now. -/
def mergeData (base : GitHubData) (overlay : OverlayData) (now : String) :
    GitHubData :=
  let existingPrs := base.prs.map (fun pr => (pr.author_username, pr.merged_at))
  let newPrs := overlay.prs.filter
    (fun pr => !existingPrs.contains (pr.author_username, pr.merged_at))
  let merged := overlay.contributors.foldl
    (fun m p =>
      match List.lookup p.1 m with
      | none => setR m p.1 p.2
      | some b => setR m p.1 (combineContrib b p.2))
    base.contributors
  let allPrs := (newPrs ++ base.prs).mergeSort
    (fun a b => decide (b.merged_at ≤ a.merged_at))
  { fetched_at := now, repo := base.repo, contributors := merged, prs := allPrs }

-- ── Trends (analyzer.ts lines 382-429, 481-488) ──────────────────────

/-- The day number (days since the epoch) of an epoch-millisecond instant:
Math.floor(t / 86400000), as in the ECMAScript Day abstract operation. -/
def dayNumber (t : Int) : Int := Int.fdiv t 86400000

/-- getUTCDay of an epoch-millisecond instant: 0 = Sunday … 6 = Saturday.
The epoch day was a Thursday, hence the +4. -/
def utcWeekday (t : Int) : Int := (dayNumber t + 4) % 7

/-- getWeekStart, reduced to day numbers: the day number of the Monday
starting the week of t.  The source computes day = getUTCDay, then
setUTCDate(getUTCDate() - day + (day === 0 ? -6 : 1)) — a shift of
-(day - 1) days (−6 for Sunday) — and zeroes the time of day. -/
def getWeekStartDay (t : Int) : Int :=
  let day := utcWeekday t
  dayNumber t - (if day = 0 then 6 else day - 1)

/-- getWeekStart as an instant: midnight UTC of the week's Monday.  The week
key of generateTrends is toISOString().slice(0, 10) of this instant, which
is in bijection with the day number getWeekStartDay t. -/
def getWeekStart (t : Int) : Int := 86400000 * getWeekStartDay t

/-- Reading weekMap[week][user] with missing entries as 0. -/
def weekMapCount (wm : List (Int × List (String × Nat))) (week : Int)
    (user : String) : Nat :=
  (List.lookup user ((List.lookup week wm).getD [])).getD 0

/-- One iteration of the bucketing loop of generateTrends: skip PRs by
non-top authors and PRs with an unparseable merge date, otherwise increment
weekMap[weekKey][author]. -/
def trendStep (topUsernames : List String)
    (wm : List (Int × List (String × Nat))) (pr : PRData) :
    List (Int × List (String × Nat)) :=
  if topUsernames.contains pr.author_username then
    match pr.merged_at with
    | none => wm
    | some t =>
      let weekKey := getWeekStartDay t
      let inner := (List.lookup weekKey wm).getD []
      setR wm weekKey
        (setR inner pr.author_username
          ((List.lookup pr.author_username inner).getD 0 + 1))
  else wm

/-- The weekMap built by generateTrends over the PR list, bucketing each
qualifying PR by the Monday of its merge week. -/
def buildWeekMap (prs : List PRData) (topUsernames : List String) :
    List (Int × List (String × Nat)) :=
  prs.foldl (trendStep topUsernames) []

/-- The bucketing stage of generateTrends: the top-N cohort is the ranked
output of analyzeEngineers truncated to top, and the weekMap buckets their
PRs by merge week.  (The remaining series construction only reads this map
off in sorted key order.) -/
def generateTrendsWeekMap (prs : List PRData)
    (contributors : List (String × ContributorData)) (top : Nat) :
    List (Int × List (String × Nat)) :=
  buildWeekMap prs (((analyzeEngineers contributors prs).take top).map
    (fun e => e.username))

-- ── Theorems ─────────────────────────────────────────────────────────

/-- C10: the ranked output of analyzeEngineers (and analyzeTopEngineers)
depends only on the contributor aggregates; the pull-request list argument
never influences the result. -/
theorem analyzeEngineers_ignores_prs
    (contributors : List (String × ContributorData))
    (prs1 prs2 : List PRData) (limit : Nat) :
    analyzeEngineers contributors prs1 = analyzeEngineers contributors prs2 ∧
    analyzeTopEngineers contributors prs1 limit
      = analyzeTopEngineers contributors prs2 limit :=
  ⟨rfl, rfl⟩

/-- C7: when prs_created = 0 or reviews_given = 0 the balance component of
the leadership score is exactly 0, so calculateLeadershipScore returns
exactly 0.6 times the ownership component, however large the other value. -/
theorem leadership_balance_gate (c : ContributorData) (pop : PopulationStats)
    (h : c.prs_created = 0 ∨ c.reviews_given = 0) :
    calculateLeadershipScore c pop
      = 0.6 * (min (c.total_files_changed / pop.maxFilesChanged) 1 * 100) := by
  unfold calculateLeadershipScore
  have hcond : ¬ (0 < c.prs_created ∧ 0 < c.reviews_given) := by
    rcases h with h | h <;> simp [h]
  rw [if_neg hcond]
  ring

/-- Witness for C7: a contributor with zero PRs created but 50 reviews given
scores exactly 0.6 times the ownership component. -/
theorem leadership_balance_gate_witness :
    ((⟨"a", "", 0, 10, 0, 0, 0, 50, 0⟩ : ContributorData).prs_created = 0 ∨
      (⟨"a", "", 0, 10, 0, 0, 0, 50, 0⟩ : ContributorData).reviews_given = 0) ∧
    calculateLeadershipScore ⟨"a", "", 0, 10, 0, 0, 0, 50, 0⟩
        ⟨1, 1, 20, 1, 1, 72⟩
      = 0.6 * (min ((10 : ℚ) / 20) 1 * 100) :=
  ⟨Or.inl rfl,
    leadership_balance_gate ⟨"a", "", 0, 10, 0, 0, 0, 50, 0⟩
      ⟨1, 1, 20, 1, 1, 72⟩ (Or.inl rfl)⟩

/-- C6: with zero eligible contributors (nobody has prs_created ≥ 2),
computePopulationStats returns all maxima 1 and p90MergeHours 72, and is
total (no error is raised). -/
theorem degenerate_population_stats
    (contributors : List (String × ContributorData))
    (h : ∀ p ∈ contributors, p.2.prs_created < 2) :
    computePopulationStats contributors =
      { maxPrs := 1, maxReviewsGiven := 1, maxFilesChanged := 1,
        maxAvgFilesPerPr := 1, maxCombined := 1, p90MergeHours := 72 } := by
  unfold computePopulationStats
  have hnil : (contributors.map Prod.snd).filter
      (fun c => decide (2 ≤ c.prs_created)) = [] := by
    rw [List.filter_eq_nil]
    intro c hc
    simp only [List.mem_map] at hc
    obtain ⟨p, hp, rfl⟩ := hc
    simpa using not_le.mpr (h p hp)
  simp [hnil]

/-- Witness for C6: a one-contributor map with a single PR author. -/
theorem degenerate_population_stats_witness :
    (∀ p ∈ [("a", (⟨"a", "", 1, 3, 4, 5, 6, 7, 2⟩ : ContributorData))],
      p.2.prs_created < 2) ∧
    computePopulationStats [("a", ⟨"a", "", 1, 3, 4, 5, 6, 7, 2⟩)] =
      { maxPrs := 1, maxReviewsGiven := 1, maxFilesChanged := 1,
        maxAvgFilesPerPr := 1, maxCombined := 1, p90MergeHours := 72 } := by
  have h : ∀ p ∈ [("a", (⟨"a", "", 1, 3, 4, 5, 6, 7, 2⟩ : ContributorData))],
      p.2.prs_created < 2 := by
    intro p hp
    rcases List.mem_singleton.mp hp with rfl
    norm_num
  exact ⟨h, degenerate_population_stats _ h⟩

-- ── Helper lemmas for the score-bounds claim ─────────────────────────

/-- The seed of a left fold by max is a lower bound of the fold. -/
theorem le_foldl_max (b : ℚ) (l : List ℚ) : b ≤ l.foldl max b := by
  induction l generalizing b with
  | nil => exact le_refl b
  | cons x xs ih =>
    simpa using le_trans (le_max_left b x) (ih (max b x))

/-- Math.max(...xs, 1) is at least 1. -/
theorem one_le_jsMaxList1 (l : List ℚ) : 1 ≤ jsMaxList1 l := le_foldl_max 1 l

/-- Math.max over a nonempty spread is at least its first element. -/
theorem head_le_jsMaxList (x : ℚ) (xs : List ℚ) : x ≤ jsMaxList (x :: xs) :=
  le_foldl_max x xs

/-- The eligible sub-population of computePopulationStats. -/
def eligibleOf (contributors : List (String × ContributorData)) :
    List ContributorData :=
  (contributors.map Prod.snd).filter (fun c => decide (2 ≤ c.prs_created))

/-- The ascending sorted list of strictly positive average merge times of
the eligible population. -/
def mergeTimesOf (contributors : List (String × ContributorData)) : List ℚ :=
  (((eligibleOf contributors).filter
    (fun c => decide (0 < c.avg_time_to_merge_hours))).map
      (fun c => c.avg_time_to_merge_hours)).mergeSort (fun a b => decide (a ≤ b))

/-- Characterization of computePopulationStats through the named
sub-population lists (definitional). -/
theorem computePopulationStats_spec (contributors : List (String × ContributorData)) :
    computePopulationStats contributors =
      if (eligibleOf contributors).length = 0 then
        { maxPrs := 1, maxReviewsGiven := 1, maxFilesChanged := 1,
          maxAvgFilesPerPr := 1, maxCombined := 1, p90MergeHours := 72 }
      else
        { maxPrs := jsMaxList ((eligibleOf contributors).map (fun c => c.prs_created)),
          maxReviewsGiven :=
            jsMaxList1 ((eligibleOf contributors).map (fun c => c.reviews_given)),
          maxFilesChanged :=
            jsMaxList1 ((eligibleOf contributors).map (fun c => c.total_files_changed)),
          maxAvgFilesPerPr := jsMaxList1 ((eligibleOf contributors).map
            (fun c => c.total_files_changed / max c.prs_created 1)),
          maxCombined := jsMaxList1 ((eligibleOf contributors).map
            (fun c => c.prs_created + c.reviews_given)),
          p90MergeHours := ((mergeTimesOf contributors).get?
            ((mergeTimesOf contributors).length * 9 / 10)).getD 72 } := rfl

/-- Every field of computePopulationStats is strictly positive: the maxima
are at least 1 (at least 2 for maxPrs on a nonempty eligible population) and
the p90 merge time is either a strictly positive merge time or the fallback
72. -/
theorem computePopulationStats_pos (contributors : List (String × ContributorData)) :
    0 < (computePopulationStats contributors).maxPrs ∧
    0 < (computePopulationStats contributors).maxReviewsGiven ∧
    0 < (computePopulationStats contributors).maxFilesChanged ∧
    0 < (computePopulationStats contributors).maxAvgFilesPerPr ∧
    0 < (computePopulationStats contributors).maxCombined ∧
    0 < (computePopulationStats contributors).p90MergeHours := by
  rw [computePopulationStats_spec]
  by_cases h : (eligibleOf contributors).length = 0
  · rw [if_pos h]
    norm_num
  · rw [if_neg h]
    dsimp only
    refine ⟨?_, ?_, ?_, ?_, ?_, ?_⟩
    · rcases heq : eligibleOf contributors with _ | ⟨x, xs⟩
      · exact absurd (by rw [heq]; rfl) h
      · have hx : x ∈ eligibleOf contributors := by
          rw [heq]; exact List.mem_cons_self x xs
        have h2 : 2 ≤ x.prs_created := by
          have := List.of_mem_filter hx
          simpa using this
        simp only [List.map_cons]
        calc (0 : ℚ) < 2 := by norm_num
          _ ≤ x.prs_created := h2
          _ ≤ jsMaxList (x.prs_created :: xs.map (fun c => c.prs_created)) :=
            head_le_jsMaxList _ _
    · exact lt_of_lt_of_le zero_lt_one (one_le_jsMaxList1 _)
    · exact lt_of_lt_of_le zero_lt_one (one_le_jsMaxList1 _)
    · exact lt_of_lt_of_le zero_lt_one (one_le_jsMaxList1 _)
    · exact lt_of_lt_of_le zero_lt_one (one_le_jsMaxList1 _)
    · rcases hg : (mergeTimesOf contributors).get?
          ((mergeTimesOf contributors).length * 9 / 10) with _ | q
      · simp only [hg, Option.getD_none]
        norm_num
      · have hq : q ∈ mergeTimesOf contributors := List.get?_mem hg
        unfold mergeTimesOf at hq
        rw [List.mem_mergeSort, List.mem_map] at hq
        obtain ⟨cc, hcc, rfl⟩ := hq
        have := List.of_mem_filter hcc
        simp only [hg, Option.getD_some]
        simpa using this

/-- Rounding to one decimal with JS Math.round keeps a value inside [0, 100]. -/
theorem round1_bounds {x : ℚ} (h0 : 0 ≤ x) (h100 : x ≤ 100) :
    0 ≤ round1 x ∧ round1 x ≤ 100 := by
  unfold round1 jsRound
  constructor
  · have hz : (0 : ℤ) ≤ ⌊x * 10 + 1/2⌋ := by
      rw [Int.le_floor]
      push_cast
      linarith
    have : (0 : ℚ) ≤ (⌊x * 10 + 1/2⌋ : ℚ) := by exact_mod_cast hz
    linarith
  · have hle : ⌊x * 10 + 1/2⌋ ≤ ⌊(2001/2 : ℚ)⌋ :=
      Int.floor_le_floor (by linarith)
    have h1000 : ⌊(2001/2 : ℚ)⌋ = 1000 := by norm_num
    have : ((⌊x * 10 + 1/2⌋ : ℤ) : ℚ) ≤ 1000 := by
      exact_mod_cast h1000 ▸ hle
    linarith

/-- A population-normalized term min(x / y, 1) × 100 lies in [0, 100]. -/
theorem normTerm_bounds {x y : ℚ} (hx : 0 ≤ x) (hy : 0 < y) :
    0 ≤ min (x / y) 1 * 100 ∧ min (x / y) 1 * 100 ≤ 100 := by
  have hlo : 0 ≤ min (x / y) 1 := le_min (div_nonneg hx hy.le) zero_le_one
  have hhi : min (x / y) 1 ≤ 1 := min_le_right _ _
  constructor <;> linarith

/-- The PR-size component of the quality score lies in [50, 100] for a
non-negative average change size. -/
theorem sizeScore_bounds {a : ℚ} (ha : 0 ≤ a) :
    50 ≤ (if 200 ≤ a ∧ a ≤ 500 then (100 : ℚ)
      else if a < 200 then 50 + a / 200 * 50
      else max 50 (100 - (a - 500) / 20)) ∧
    (if 200 ≤ a ∧ a ≤ 500 then (100 : ℚ)
      else if a < 200 then 50 + a / 200 * 50
      else max 50 (100 - (a - 500) / 20)) ≤ 100 := by
  split_ifs with h1 h2
  · norm_num
  · have hnn : 0 ≤ a / 200 * 50 := by
      have := div_nonneg ha (by norm_num : (0 : ℚ) ≤ 200)
      nlinarith
    have hlt : a / 200 < 1 := (div_lt_one (by norm_num)).mpr h2
    constructor <;> nlinarith
  · push_neg at h1 h2
    have h500 : 500 < a := h1 h2
    constructor
    · exact le_max_left _ _
    · refine max_le (by norm_num) ?_
      have : 0 ≤ (a - 500) / 20 :=
        div_nonneg (by linarith) (by norm_num)
      linarith

/-- The quality score is in [0, 100] for a contributor with non-negative
additions, deletions, reviews and merge time, against positive population
statistics. -/
theorem calculateQualityScore_bounds (c : ContributorData) (pop : PopulationStats)
    (hadd : 0 ≤ c.total_additions) (hdel : 0 ≤ c.total_deletions)
    (havg : 0 ≤ c.avg_time_to_merge_hours) (hrev : 0 ≤ c.reviews_given)
    (hp90 : 0 < pop.p90MergeHours) (hmax : 0 < pop.maxReviewsGiven) :
    0 ≤ calculateQualityScore c pop ∧ calculateQualityScore c pop ≤ 100 := by
  unfold calculateQualityScore
  have hmt0 : 0 ≤ min c.avg_time_to_merge_hours pop.p90MergeHours :=
    le_min havg hp90.le
  have hmt1 : min c.avg_time_to_merge_hours pop.p90MergeHours
      ≤ pop.p90MergeHours := min_le_right _ _
  have hr0 : 0 ≤ min c.avg_time_to_merge_hours pop.p90MergeHours
      / pop.p90MergeHours := div_nonneg hmt0 hp90.le
  have hr1 : min c.avg_time_to_merge_hours pop.p90MergeHours
      / pop.p90MergeHours ≤ 1 := (div_le_one hp90).mpr hmt1
  have hmaxp : (0 : ℚ) < max c.prs_created 1 :=
    lt_of_lt_of_le zero_lt_one (le_max_right _ _)
  have hac : 0 ≤ (c.total_additions + c.total_deletions) / max c.prs_created 1 :=
    div_nonneg (add_nonneg hadd hdel) hmaxp.le
  obtain ⟨hsz0, hsz1⟩ := sizeScore_bounds hac
  obtain ⟨hra0, hra1⟩ := normTerm_bounds hrev hmax
  constructor <;> nlinarith

/-- The velocity score is in [0, 100] for non-negative counters against
positive population statistics. -/
theorem calculateVelocityScore_bounds (c : ContributorData) (pop : PopulationStats)
    (hprs : 0 ≤ c.prs_created) (hfc : 0 ≤ c.total_files_changed)
    (hmaxPrs : 0 < pop.maxPrs) (hmaxAvg : 0 < pop.maxAvgFilesPerPr) :
    0 ≤ calculateVelocityScore c pop ∧ calculateVelocityScore c pop ≤ 100 := by
  unfold calculateVelocityScore
  have hmaxp : (0 : ℚ) < max c.prs_created 1 :=
    lt_of_lt_of_le zero_lt_one (le_max_right _ _)
  obtain ⟨hc0, hc1⟩ := normTerm_bounds hprs hmaxPrs
  obtain ⟨hx0, hx1⟩ :=
    normTerm_bounds (div_nonneg hfc hmaxp.le) hmaxAvg
  constructor <;> nlinarith

/-- The collaboration score is in [0, 100] for non-negative counters against
positive population statistics. -/
theorem calculateCollaborationScore_bounds (c : ContributorData)
    (pop : PopulationStats) (hrev : 0 ≤ c.reviews_given)
    (hmax : 0 < pop.maxReviewsGiven) :
    0 ≤ calculateCollaborationScore c pop ∧
    calculateCollaborationScore c pop ≤ 100 := by
  unfold calculateCollaborationScore
  obtain ⟨hv0, hv1⟩ := normTerm_bounds hrev hmax
  have hd : 0 ≤ (if 0 < c.prs_reviewed then
        min (c.reviews_given / c.prs_reviewed / 3) 1 * 100
      else (0 : ℚ)) ∧
      (if 0 < c.prs_reviewed then
        min (c.reviews_given / c.prs_reviewed / 3) 1 * 100
      else (0 : ℚ)) ≤ 100 := by
    split_ifs with h
    · exact normTerm_bounds (div_nonneg hrev h.le) (by norm_num)
    · norm_num
  constructor <;> nlinarith [hd.1, hd.2]

/-- The leadership score is in [0, 100] for non-negative counters against
positive population statistics. -/
theorem calculateLeadershipScore_bounds (c : ContributorData)
    (pop : PopulationStats) (hfc : 0 ≤ c.total_files_changed)
    (hmaxF : 0 < pop.maxFilesChanged) (hmaxC : 0 < pop.maxCombined) :
    0 ≤ calculateLeadershipScore c pop ∧
    calculateLeadershipScore c pop ≤ 100 := by
  unfold calculateLeadershipScore
  obtain ⟨ho0, ho1⟩ := normTerm_bounds hfc hmaxF
  have hb : 0 ≤ (if 0 < c.prs_created ∧ 0 < c.reviews_given then
        min ((c.prs_created + c.reviews_given) / pop.maxCombined) 1 * 100
      else (0 : ℚ)) ∧
      (if 0 < c.prs_created ∧ 0 < c.reviews_given then
        min ((c.prs_created + c.reviews_given) / pop.maxCombined) 1 * 100
      else (0 : ℚ)) ≤ 100 := by
    split_ifs with h
    · exact normTerm_bounds (by nlinarith [h.1, h.2]) hmaxC
    · norm_num
  constructor <;> nlinarith [hb.1, hb.2]

/-- The data-model invariants on a contributor record: all counters
non-negative, reviews_given ≥ prs_reviewed ≥ 0 (a reviewer can file several
review events on one PR), non-negative average merge time. -/
def ValidContributor (c : ContributorData) : Prop :=
  0 ≤ c.prs_created ∧ 0 ≤ c.total_files_changed ∧ 0 ≤ c.total_additions ∧
  0 ≤ c.total_deletions ∧ 0 ≤ c.avg_time_to_merge_hours ∧
  0 ≤ c.prs_reviewed ∧ c.prs_reviewed ≤ c.reviews_given

/-- C1: for a contributor satisfying the data-model invariants, scored
against population statistics computed from any map of invariant-satisfying
contributors, every dimension score and the composite impact score of
scoreContributor lies in [0, 100]. -/
theorem scoreContributor_bounds (contributors : List (String × ContributorData))
    (hall : ∀ p ∈ contributors, ValidContributor p.2)
    (username : String) (c : ContributorData) (hc : ValidContributor c) :
    (0 ≤ (scoreContributor username c (computePopulationStats contributors)).quality_score ∧
      (scoreContributor username c (computePopulationStats contributors)).quality_score ≤ 100) ∧
    (0 ≤ (scoreContributor username c (computePopulationStats contributors)).velocity_score ∧
      (scoreContributor username c (computePopulationStats contributors)).velocity_score ≤ 100) ∧
    (0 ≤ (scoreContributor username c (computePopulationStats contributors)).collaboration_score ∧
      (scoreContributor username c (computePopulationStats contributors)).collaboration_score ≤ 100) ∧
    (0 ≤ (scoreContributor username c (computePopulationStats contributors)).leadership_score ∧
      (scoreContributor username c (computePopulationStats contributors)).leadership_score ≤ 100) ∧
    (0 ≤ (scoreContributor username c (computePopulationStats contributors)).impact_score ∧
      (scoreContributor username c (computePopulationStats contributors)).impact_score ≤ 100) := by
  obtain ⟨hprs, hfc, hadd, hdel, havg, hpr, hrr⟩ := hc
  have hrev : 0 ≤ c.reviews_given := le_trans hpr hrr
  obtain ⟨hP, hR, hF, hA, hC, h90⟩ := computePopulationStats_pos contributors
  obtain ⟨hq0, hq1⟩ := calculateQualityScore_bounds c _ hadd hdel havg hrev h90 hR
  obtain ⟨hv0, hv1⟩ := calculateVelocityScore_bounds c _ hprs hfc hP hA
  obtain ⟨hc0, hc1⟩ := calculateCollaborationScore_bounds c _ hrev hR
  obtain ⟨hl0, hl1⟩ := calculateLeadershipScore_bounds c _ hfc hF hC
  have himp0 : 0 ≤ 0.3 * calculateQualityScore c (computePopulationStats contributors)
      + 0.3 * calculateVelocityScore c (computePopulationStats contributors)
      + 0.2 * calculateCollaborationScore c (computePopulationStats contributors)
      + 0.2 * calculateLeadershipScore c (computePopulationStats contributors) := by
    nlinarith
  have himp1 : 0.3 * calculateQualityScore c (computePopulationStats contributors)
      + 0.3 * calculateVelocityScore c (computePopulationStats contributors)
      + 0.2 * calculateCollaborationScore c (computePopulationStats contributors)
      + 0.2 * calculateLeadershipScore c (computePopulationStats contributors) ≤ 100 := by
    nlinarith
  exact ⟨round1_bounds hq0 hq1, round1_bounds hv0 hv1, round1_bounds hc0 hc1,
    round1_bounds hl0 hl1, round1_bounds himp0 himp1⟩

/-- Witness for C1: a concrete invariant-satisfying contributor scored
against the population consisting of that same contributor. -/
theorem scoreContributor_bounds_witness :
    (∀ p ∈ [("a", (⟨"a", "", 3, 10, 250, 50, 12, 5, 4⟩ : ContributorData))],
      ValidContributor p.2) ∧
    ValidContributor ⟨"a", "", 3, 10, 250, 50, 12, 5, 4⟩ ∧
    (0 ≤ (scoreContributor "a" ⟨"a", "", 3, 10, 250, 50, 12, 5, 4⟩
        (computePopulationStats
          [("a", ⟨"a", "", 3, 10, 250, 50, 12, 5, 4⟩)])).impact_score ∧
      (scoreContributor "a" ⟨"a", "", 3, 10, 250, 50, 12, 5, 4⟩
        (computePopulationStats
          [("a", ⟨"a", "", 3, 10, 250, 50, 12, 5, 4⟩)])).impact_score ≤ 100) := by
  have hv : ValidContributor (⟨"a", "", 3, 10, 250, 50, 12, 5, 4⟩ : ContributorData) := by
    unfold ValidContributor
    norm_num
  have hall : ∀ p ∈ [("a", (⟨"a", "", 3, 10, 250, 50, 12, 5, 4⟩ : ContributorData))],
      ValidContributor p.2 := by
    intro p hp
    rcases List.mem_singleton.mp hp with rfl
    exact hv
  exact ⟨hall, hv,
    (scoreContributor_bounds [("a", ⟨"a", "", 3, 10, 250, 50, 12, 5, 4⟩)]
      hall "a" ⟨"a", "", 3, 10, 250, 50, 12, 5, 4⟩ hv).2.2.2.2⟩

-- ── C5: eligibility filter ───────────────────────────────────────────

/-- Removing the ineligible contributors before computing the eligible
sub-population changes nothing: the eligibility filter is idempotent. -/
theorem eligibleOf_filter (l : List (String × ContributorData)) :
    eligibleOf (l.filter (fun p => decide (2 ≤ p.2.prs_created)))
      = eligibleOf l := by
  induction l with
  | nil => rfl
  | cons x xs ih =>
    by_cases h : 2 ≤ x.2.prs_created
    · have h1 : eligibleOf
          ((x :: xs).filter (fun p => decide (2 ≤ p.2.prs_created)))
          = x.2 :: eligibleOf
            (xs.filter (fun p => decide (2 ≤ p.2.prs_created))) := by
        simp [eligibleOf, List.filter_cons, h]
      have h2 : eligibleOf (x :: xs) = x.2 :: eligibleOf xs := by
        simp [eligibleOf, List.filter_cons, h]
      rw [h1, h2, ih]
    · have h1 : eligibleOf
          ((x :: xs).filter (fun p => decide (2 ≤ p.2.prs_created)))
          = eligibleOf (xs.filter (fun p => decide (2 ≤ p.2.prs_created))) := by
        simp [eligibleOf, List.filter_cons, h]
      have h2 : eligibleOf (x :: xs) = eligibleOf xs := by
        simp [eligibleOf, List.filter_cons, h]
      rw [h1, h2, ih]

/-- The sorted merge-time list is likewise unchanged by pre-filtering. -/
theorem mergeTimesOf_filter (l : List (String × ContributorData)) :
    mergeTimesOf (l.filter (fun p => decide (2 ≤ p.2.prs_created)))
      = mergeTimesOf l := by
  unfold mergeTimesOf
  rw [eligibleOf_filter]

/-- C5: no contributor with prs_created < 2 appears in the ranked output of
analyzeEngineers (every ranked record carries prs_created ≥ 2 in its stats
snapshot), and ineligible contributors do not influence any of the six
population statistics: dropping them from the input map leaves
computePopulationStats unchanged. -/
theorem eligibility_filter (contributors : List (String × ContributorData))
    (prs : List PRData) :
    (∀ e ∈ analyzeEngineers contributors prs, 2 ≤ e.stats.prs_created) ∧
    computePopulationStats contributors =
      computePopulationStats
        (contributors.filter (fun p => decide (2 ≤ p.2.prs_created))) := by
  constructor
  · intro e he
    simp only [analyzeEngineers] at he
    rw [List.mem_mergeSort, List.mem_map] at he
    obtain ⟨p, hp, rfl⟩ := he
    have hf := List.of_mem_filter hp
    simp only [Bool.not_eq_true', decide_eq_false_iff_not, not_lt] at hf
    exact hf
  · rw [computePopulationStats_spec, computePopulationStats_spec,
      eligibleOf_filter, mergeTimesOf_filter]

/-- Witness for C5: a single eligible contributor appears in its own ranked
output with prs_created ≥ 2, and pre-filtering the map is a no-op. -/
theorem eligibility_filter_witness :
    scoreContributor "a" ⟨"a", "", 2, 3, 4, 5, 0, 1, 1⟩
        (computePopulationStats [("a", ⟨"a", "", 2, 3, 4, 5, 0, 1, 1⟩)])
      ∈ analyzeEngineers [("a", ⟨"a", "", 2, 3, 4, 5, 0, 1, 1⟩)] [] ∧
    2 ≤ (scoreContributor "a" ⟨"a", "", 2, 3, 4, 5, 0, 1, 1⟩
        (computePopulationStats [("a", ⟨"a", "", 2, 3, 4, 5, 0, 1, 1⟩)])).stats.prs_created ∧
    computePopulationStats [("a", ⟨"a", "", 2, 3, 4, 5, 0, 1, 1⟩)] =
      computePopulationStats
        ([("a", (⟨"a", "", 2, 3, 4, 5, 0, 1, 1⟩ : ContributorData))].filter
          (fun p => decide (2 ≤ p.2.prs_created))) := by
  have hmem : scoreContributor "a" ⟨"a", "", 2, 3, 4, 5, 0, 1, 1⟩
      (computePopulationStats [("a", ⟨"a", "", 2, 3, 4, 5, 0, 1, 1⟩)])
      ∈ analyzeEngineers [("a", ⟨"a", "", 2, 3, 4, 5, 0, 1, 1⟩)] [] := by
    simp only [analyzeEngineers]
    rw [List.mem_mergeSort]
    have hkeep : ¬ ((⟨"a", "", 2, 3, 4, 5, 0, 1, 1⟩ : ContributorData).prs_created < 2) := by
      norm_num
    simp [List.filter_cons, hkeep]
  exact ⟨hmem, (eligibility_filter [("a", ⟨"a", "", 2, 3, 4, 5, 0, 1, 1⟩)] []).1 _ hmem,
    (eligibility_filter [("a", ⟨"a", "", 2, 3, 4, 5, 0, 1, 1⟩)] []).2⟩

-- ── C3: the concrete scoring scenario ────────────────────────────────

/-- Contributor A of the concrete spec scenario: 7 PRs, 135 files, 2609
additions, 240 deletions, 64.13 average merge hours, 24 reviews given, 15
PRs reviewed. -/
def contributorA : ContributorData :=
  ⟨"contributorA", "", 7, 135, 2609, 240, 6413/100, 24, 15⟩

/-- The population statistics of the concrete spec scenario. -/
def popA : PopulationStats := ⟨7, 24, 135, 193/10, 31, 6413/100⟩

/-- Counterexample to C3: in the scenario the engine's quality score is
exactly 50.0 (the average merge time equals the population p90, so the merge
speed component is 0), not within 0.1 of the claimed 55.5. -/
theorem scenario_quality_score_not_as_claimed :
    ¬ |(scoreContributor "contributorA" contributorA popA).quality_score
        - 555/10| ≤ 1/10 := by
  have h : (scoreContributor "contributorA" contributorA popA).quality_score
      = 50 := by
    show round1 (calculateQualityScore contributorA popA) = 50
    norm_num [calculateQualityScore, contributorA, popA, round1, jsRound,
      min_def, max_def]
  rw [h]
  norm_num [abs_le]

/-- C3 amended: in the concrete scenario the engine yields quality 50.0,
velocity 100.0, collaboration 86.0, leadership 100.0 and impact 82.2. -/
theorem scenario_scores :
    (scoreContributor "contributorA" contributorA popA).quality_score = 50 ∧
    (scoreContributor "contributorA" contributorA popA).velocity_score = 100 ∧
    (scoreContributor "contributorA" contributorA popA).collaboration_score = 86 ∧
    (scoreContributor "contributorA" contributorA popA).leadership_score = 100 ∧
    (scoreContributor "contributorA" contributorA popA).impact_score = 411/5 := by
  refine ⟨?_, ?_, ?_, ?_, ?_⟩
  · show round1 (calculateQualityScore contributorA popA) = 50
    norm_num [calculateQualityScore, contributorA, popA, round1, jsRound,
      min_def, max_def]
  · show round1 (calculateVelocityScore contributorA popA) = 100
    norm_num [calculateVelocityScore, contributorA, popA, round1, jsRound,
      min_def, max_def]
  · show round1 (calculateCollaborationScore contributorA popA) = 86
    norm_num [calculateCollaborationScore, contributorA, popA, round1, jsRound,
      min_def, max_def]
  · show round1 (calculateLeadershipScore contributorA popA) = 100
    norm_num [calculateLeadershipScore, contributorA, popA, round1, jsRound,
      min_def, max_def]
  · show round1 (0.3 * calculateQualityScore contributorA popA
      + 0.3 * calculateVelocityScore contributorA popA
      + 0.2 * calculateCollaborationScore contributorA popA
      + 0.2 * calculateLeadershipScore contributorA popA) = 411/5
    norm_num [calculateQualityScore, calculateVelocityScore,
      calculateCollaborationScore, calculateLeadershipScore, contributorA,
      popA, round1, jsRound, min_def, max_def]

-- ── C2 / C4: mergeData ───────────────────────────────────────────────

/-- Looking up a key just written by setR yields the written value. -/
theorem lookup_setR_self {α : Type} (m : List (String × α)) (k : String) (v : α) :
    List.lookup k (setR m k v) = some v := by
  induction m with
  | nil => simp [setR, List.lookup]
  | cons p rest ih =>
    obtain ⟨k0, v0⟩ := p
    by_cases h : k0 = k
    · simp [setR, h, List.lookup]
    · simp only [setR, if_neg h, List.lookup]
      have : (k == k0) = false := by
        simp [Ne.symm h]
      simp [this, ih]

/-- C2 counterexample data: a base whose single contributor also appears in
the overlay, with the overlay PR a duplicate of a base PR. -/
def dupContributor : ContributorData := ⟨"u", "", 2, 10, 10, 10, 10, 3, 2⟩

/-- A pull-request record shared by the base and the overlay. -/
def dupPr : PROutput := ⟨"u", "t", 1, 1, 1, 1, 0, 1000, 1, []⟩

/-- The base dataset of the C2 counterexample. -/
def baseDup : GitHubData := ⟨"t0", "r", [("u", dupContributor)], [dupPr]⟩

/-- The overlay of the C2 counterexample: its only PR's dedup key already
exists in the base. -/
def overlayDup : OverlayData := ⟨[("u", dupContributor)], [dupPr]⟩

/-- An earlier-merged PR, listed first in the second counterexample base. -/
def prOld : PROutput := ⟨"v", "t1", 1, 1, 1, 1, 0, 1000, 1, []⟩

/-- A later-merged PR, listed second (so the base is not sorted descending). -/
def prNew : PROutput := ⟨"w", "t2", 1, 1, 1, 1, 0, 2000, 1, []⟩

/-- Second counterexample base: PR list in ascending merge order. -/
def baseAsc : GitHubData := ⟨"t0", "r", [], [prOld, prNew]⟩

/-- Second counterexample overlay: empty contributor map, one duplicate PR. -/
def overlayAsc : OverlayData := ⟨[], [prOld]⟩

/-- Counterexample to C2.  Both failure modes of merge idempotence at
concrete inputs: (1) even though the overlay PR's dedup key already exists
in the base, mergeData sums the overlay contributor's counters onto the base
record, so the contributor map changes; (2) with an empty overlay
contributor map, mergeData still re-sorts the base PR list descending by
merge time, so a base list not already in that order changes. -/
theorem mergeData_not_idempotent :
    (∀ pr ∈ overlayDup.prs, (pr.author_username, pr.merged_at) ∈
      baseDup.prs.map (fun q => (q.author_username, q.merged_at))) ∧
    (mergeData baseDup overlayDup "t1").contributors ≠ baseDup.contributors ∧
    (∀ pr ∈ overlayAsc.prs, (pr.author_username, pr.merged_at) ∈
      baseAsc.prs.map (fun q => (q.author_username, q.merged_at))) ∧
    (mergeData baseAsc overlayAsc "t1").prs ≠ baseAsc.prs := by
  refine ⟨?_, ?_, ?_, ?_⟩
  · intro pr hpr
    rcases List.mem_singleton.mp hpr with rfl
    simp [baseDup]
  · have h : (mergeData baseDup overlayDup "t1").contributors
        = [("u", combineContrib dupContributor dupContributor)] := by
      simp [mergeData, baseDup, overlayDup, setR, List.lookup]
    rw [h]
    intro hcon
    have : combineContrib dupContributor dupContributor = dupContributor := by
      have := List.cons.injEq _ _ _ _ ▸ hcon
      simp [baseDup] at hcon
      exact hcon
    have h4 : (combineContrib dupContributor dupContributor).prs_created = 4 := by
      norm_num [combineContrib, dupContributor]
    rw [this] at h4
    norm_num [dupContributor] at h4
  · intro pr hpr
    rcases List.mem_singleton.mp hpr with rfl
    simp [baseAsc]
  · have h : (mergeData baseAsc overlayAsc "t1").prs = [prNew, prOld] := by
      simp [mergeData, baseAsc, overlayAsc, List.mergeSort, prOld, prNew]
    rw [h]
    simp only [baseAsc]
    intro hcon
    have := (List.cons.injEq _ _ _ _).mp hcon
    have h1 := this.1
    norm_num [prOld, prNew, PROutput.mk.injEq] at h1

/-- C2 amended: when every overlay PR's dedup key already exists in the
base, the overlay's contributor map is empty, and the base PR list is
already sorted descending by merge time, mergeData returns the base's PR
list and contributor map unchanged (only the freshness timestamp is
rewritten). -/
theorem mergeData_idempotent (base : GitHubData) (overlay : OverlayData)
    (now : String)
    (hC : overlay.contributors = [])
    (hK : ∀ pr ∈ overlay.prs, (pr.author_username, pr.merged_at) ∈
      base.prs.map (fun q => (q.author_username, q.merged_at)))
    (hS : base.prs.Pairwise (fun a b => b.merged_at ≤ a.merged_at)) :
    (mergeData base overlay now).prs = base.prs ∧
    (mergeData base overlay now).contributors = base.contributors := by
  have hnew : overlay.prs.filter
      (fun pr => !(base.prs.map
        (fun q => (q.author_username, q.merged_at))).contains
          (pr.author_username, pr.merged_at)) = [] := by
    rw [List.filter_eq_nil_iff]
    intro pr hpr
    simp only [Bool.not_eq_true', Bool.not_eq_false]
    exact List.elem_eq_true_of_mem (hK pr hpr)
  have hsorted : ((overlay.prs.filter
      (fun pr => !(base.prs.map
        (fun q => (q.author_username, q.merged_at))).contains
          (pr.author_username, pr.merged_at))) ++ base.prs).mergeSort
        (fun a b => decide (b.merged_at ≤ a.merged_at)) = base.prs := by
    rw [hnew, List.nil_append]
    exact List.mergeSort_of_sorted (hS.imp (fun h => by simpa using h))
  constructor
  · show ((overlay.prs.filter _) ++ base.prs).mergeSort _ = base.prs
    exact hsorted
  · show overlay.contributors.foldl _ base.contributors = base.contributors
    rw [hC]
    rfl

/-- Witness for C2 amended: a concrete base with two PRs sorted descending
and an overlay that only duplicates one of them. -/
theorem mergeData_idempotent_witness :
    ((⟨[], [prOld]⟩ : OverlayData).contributors = []) ∧
    (∀ pr ∈ (⟨[], [prOld]⟩ : OverlayData).prs,
      (pr.author_username, pr.merged_at) ∈
        (⟨"t0", "r", [("u", dupContributor)], [prNew, prOld]⟩ : GitHubData).prs.map
          (fun q => (q.author_username, q.merged_at))) ∧
    (⟨"t0", "r", [("u", dupContributor)], [prNew, prOld]⟩ : GitHubData).prs.Pairwise
      (fun a b => b.merged_at ≤ a.merged_at) ∧
    (mergeData ⟨"t0", "r", [("u", dupContributor)], [prNew, prOld]⟩
        ⟨[], [prOld]⟩ "t1").prs = [prNew, prOld] ∧
    (mergeData ⟨"t0", "r", [("u", dupContributor)], [prNew, prOld]⟩
        ⟨[], [prOld]⟩ "t1").contributors = [("u", dupContributor)] := by
  have hC : ((⟨[], [prOld]⟩ : OverlayData) : OverlayData).contributors = [] := rfl
  have hK : ∀ pr ∈ (⟨[], [prOld]⟩ : OverlayData).prs,
      (pr.author_username, pr.merged_at) ∈
        (⟨"t0", "r", [("u", dupContributor)], [prNew, prOld]⟩ : GitHubData).prs.map
          (fun q => (q.author_username, q.merged_at)) := by
    intro pr hpr
    rcases List.mem_singleton.mp hpr with rfl
    simp
  have hS : (⟨"t0", "r", [("u", dupContributor)], [prNew, prOld]⟩ :
      GitHubData).prs.Pairwise (fun a b => b.merged_at ≤ a.merged_at) := by
    simp only [List.pairwise_cons]
    refine ⟨?_, ?_, ?_⟩
    · intro b hb
      rcases List.mem_singleton.mp hb with rfl
      norm_num [prOld, prNew]
    · intro b hb
      exact absurd hb (List.not_mem_nil b)
    · exact List.Pairwise.nil
  exact ⟨hC, hK, hS,
    (mergeData_idempotent _ _ "t1" hC hK hS).1,
    (mergeData_idempotent _ _ "t1" hC hK hS).2⟩

/-- C4 counterexample data: base contributor with 1 PR averaging 1 hour. -/
def cbOne : ContributorData := ⟨"u", "", 1, 0, 0, 0, 1, 0, 0⟩

/-- C4 counterexample data: overlay contributor with 2 PRs averaging 2 hours. -/
def coTwo : ContributorData := ⟨"u", "", 2, 0, 0, 0, 2, 0, 0⟩

/-- Counterexample to C4: merging 1 PR averaging 1 hour with 2 PRs averaging
2 hours stores 1.67, the two-decimal rounding of the weighted mean, not the
exact weighted mean 5/3. -/
theorem mergeData_average_is_rounded :
    (List.lookup "u" (mergeData ⟨"t0", "r", [("u", cbOne)], []⟩
        ⟨[("u", coTwo)], []⟩ "t1").contributors).map
      (fun c => c.avg_time_to_merge_hours) = some (167/100) ∧
    (167/100 : ℚ) ≠ (1 * 1 + 2 * 2) / (1 + 2) := by
  constructor
  · have h : (mergeData ⟨"t0", "r", [("u", cbOne)], []⟩
        ⟨[("u", coTwo)], []⟩ "t1").contributors
        = [("u", combineContrib cbOne coTwo)] := by
      simp [mergeData, setR, List.lookup]
    rw [h]
    have havg : (combineContrib cbOne coTwo).avg_time_to_merge_hours
        = 167/100 := by
      norm_num [combineContrib, cbOne, coTwo, round2, jsRound]
    simp [List.lookup, havg]
  · norm_num

/-- C4 amended: merging a base record (n1 PRs, average a1) with an overlay
record (n2 PRs, average a2) for the same identity, n1 + n2 > 0, produces a
single record whose average merge-hours is the weighted mean
(a1·n1 + a2·n2)/(n1 + n2) rounded to two decimals — not the arithmetic mean
of a1 and a2 — and whose files/additions/deletions/reviews/reviewed counters
are the sums of the two inputs. -/
theorem mergeData_weighted_average (base : GitHubData) (overlay : OverlayData)
    (now : String) (u : String) (cb co : ContributorData)
    (hov : overlay.contributors = [(u, co)])
    (hb : List.lookup u base.contributors = some cb)
    (hpos : 0 < cb.prs_created + co.prs_created) :
    List.lookup u (mergeData base overlay now).contributors =
      some { name := jsOr co.name cb.name
             avatar_url := jsOr co.avatar_url cb.avatar_url
             prs_created := cb.prs_created + co.prs_created
             total_files_changed :=
               cb.total_files_changed + co.total_files_changed
             total_additions := cb.total_additions + co.total_additions
             total_deletions := cb.total_deletions + co.total_deletions
             avg_time_to_merge_hours := round2
               ((cb.avg_time_to_merge_hours * cb.prs_created
                 + co.avg_time_to_merge_hours * co.prs_created)
                 / (cb.prs_created + co.prs_created))
             reviews_given := cb.reviews_given + co.reviews_given
             prs_reviewed := cb.prs_reviewed + co.prs_reviewed } := by
  show List.lookup u (overlay.contributors.foldl _ base.contributors) = _
  rw [hov, List.foldl_cons, List.foldl_nil]
  simp only [hb]
  rw [lookup_setR_self]
  unfold combineContrib
  dsimp only
  rw [if_pos hpos]

/-- Witness for C4 amended: 1 PR at 1 hour merged with 1 PR at 2 hours gives
the weighted (here also arithmetic) mean 1.5 exactly, and summed counters. -/
theorem mergeData_weighted_average_witness :
    ((⟨[("u", (⟨"u", "", 1, 2, 3, 4, 2, 5, 1⟩ : ContributorData))], []⟩ :
        OverlayData).contributors = [("u", ⟨"u", "", 1, 2, 3, 4, 2, 5, 1⟩)]) ∧
    (List.lookup "u" (⟨"t0", "r", [("u", cbOne)], []⟩ : GitHubData).contributors
      = some cbOne) ∧
    (0 : ℚ) < cbOne.prs_created
      + (⟨"u", "", 1, 2, 3, 4, 2, 5, 1⟩ : ContributorData).prs_created ∧
    List.lookup "u" (mergeData ⟨"t0", "r", [("u", cbOne)], []⟩
        ⟨[("u", ⟨"u", "", 1, 2, 3, 4, 2, 5, 1⟩)], []⟩ "t1").contributors =
      some { name := jsOr "u" cbOne.name
             avatar_url := jsOr "" cbOne.avatar_url
             prs_created := cbOne.prs_created + 1
             total_files_changed := cbOne.total_files_changed + 2
             total_additions := cbOne.total_additions + 3
             total_deletions := cbOne.total_deletions + 4
             avg_time_to_merge_hours := round2
               ((cbOne.avg_time_to_merge_hours * cbOne.prs_created + 2 * 1)
                 / (cbOne.prs_created + 1))
             reviews_given := cbOne.reviews_given + 5
             prs_reviewed := cbOne.prs_reviewed + 1 } := by
  have hov : (⟨[("u", (⟨"u", "", 1, 2, 3, 4, 2, 5, 1⟩ : ContributorData))], []⟩ :
      OverlayData).contributors = [("u", ⟨"u", "", 1, 2, 3, 4, 2, 5, 1⟩)] := rfl
  have hb : List.lookup "u"
      (⟨"t0", "r", [("u", cbOne)], []⟩ : GitHubData).contributors
      = some cbOne := by
    simp [List.lookup]
  have hpos : (0 : ℚ) < cbOne.prs_created
      + (⟨"u", "", 1, 2, 3, 4, 2, 5, 1⟩ : ContributorData).prs_created := by
    norm_num [cbOne]
  exact ⟨hov, hb, hpos,
    mergeData_weighted_average _ _ "t1" "u" cbOne _ hov hb hpos⟩

-- ── C8: malformed records are dropped by aggregateRawPRs ─────────────

/-- A raw PR with a missing author or an unparseable creation or merge
timestamp leaves the aggregation state untouched. -/
theorem aggStep_malformed (st : AggState) (pr : RawPR)
    (h : pr.author = none ∨ pr.createdAt = none ∨ pr.mergedAt = none) :
    aggStep st pr = st := by
  unfold aggStep
  rcases h with h | h | h
  · rw [h]
  · cases ha : pr.author with
    | none => rfl
    | some a =>
      by_cases hbot : a.login.endsWith "[bot]"
      · simp [hbot]
      · simp only [hbot, if_false, h]
        cases pr.mergedAt <;> rfl
  · cases ha : pr.author with
    | none => rfl
    | some a =>
      by_cases hbot : a.login.endsWith "[bot]"
      · simp [hbot]
      · simp only [hbot, if_false, h]
        cases pr.createdAt <;> rfl

/-- C8: a raw pull-request record with a missing author or an unparseable
creation or merge timestamp is dropped by aggregateRawPRs: removing it from
the input changes nothing, so it contributes to no contributor counters and
produces no output record, while all well-formed records around it are still
aggregated; aggregation is a total function, so the malformed record never
aborts it. -/
theorem aggregateRawPRs_drops_malformed (pre suf : List RawPR) (m : RawPR)
    (h : m.author = none ∨ m.createdAt = none ∨ m.mergedAt = none) :
    aggregateRawPRs (pre ++ m :: suf) = aggregateRawPRs (pre ++ suf) := by
  unfold aggregateRawPRs
  rw [List.foldl_append, List.foldl_append, List.foldl_cons,
    aggStep_malformed _ _ h]

/-- A well-formed raw PR used by the C8 witness. -/
def goodRaw : RawPR :=
  ⟨7, "t", some 0, some 3600000, 10, 2, 3, some ⟨"alice", "av"⟩,
    [some ⟨"bob", "av2"⟩]⟩

/-- An authorless raw PR used by the C8 witness. -/
def authorlessRaw : RawPR := ⟨8, "t2", some 0, some 3600000, 1, 1, 1, none, []⟩

/-- Witness for C8: dropping a concrete authorless record between two
aggregations makes no difference. -/
theorem aggregateRawPRs_drops_malformed_witness :
    (authorlessRaw.author = none ∨ authorlessRaw.createdAt = none ∨
      authorlessRaw.mergedAt = none) ∧
    aggregateRawPRs ([goodRaw] ++ authorlessRaw :: []) =
      aggregateRawPRs ([goodRaw] ++ []) :=
  ⟨Or.inl rfl,
    aggregateRawPRs_drops_malformed [goodRaw] [] authorlessRaw (Or.inl rfl)⟩

-- ── C9: weekly trend bucketing ───────────────────────────────────────

/-- Looking up a key distinct from the one just written by setR sees the
old record. -/
theorem lookup_setR_ne {κ α : Type} [BEq κ] [LawfulBEq κ] [DecidableEq κ]
    (m : List (κ × α)) (k k0 : κ) (v : α) (h : k ≠ k0) :
    List.lookup k (setR m k0 v) = List.lookup k m := by
  induction m with
  | nil =>
    have hb : (k == k0) = false := by simp [h]
    simp [setR, List.lookup, hb]
  | cons p rest ih =>
    obtain ⟨k1, v1⟩ := p
    by_cases h1 : k1 = k0
    · subst h1
      have : (k == k1) = false := by simp [h]
      simp [setR, List.lookup, this]
    · simp only [setR, if_neg h1, List.lookup]
      rw [ih]

/-- Looking up an Int key distinct from the one just written by setR. -/
theorem lookup_setR_self_int {α : Type} (m : List (Int × α)) (k : Int) (v : α) :
    List.lookup k (setR m k v) = some v := by
  induction m with
  | nil => simp [setR, List.lookup]
  | cons p rest ih =>
    obtain ⟨k0, v0⟩ := p
    by_cases h : k0 = k
    · simp [setR, h, List.lookup]
    · simp only [setR, if_neg h, List.lookup]
      have : (k == k0) = false := by simp [Ne.symm h]
      simp [this, ih]

/-- The qualifying predicate of the trend bucketing: the PR belongs to a
top-N author, that author is u, and its merge date parses into week k. -/
def qualifiesFor (top : List String) (k : Int) (u : String) (pr : PRData) :
    Bool :=
  top.contains pr.author_username && pr.author_username == u &&
    (match pr.merged_at with
     | some t => getWeekStartDay t == k
     | none => false)

/-- One bucketing step changes the (k, u) cell by exactly the qualifying
indicator of the processed PR. -/
theorem weekMapCount_trendStep (top : List String)
    (wm : List (Int × List (String × Nat))) (pr : PRData) (k : Int) (u : String) :
    weekMapCount (trendStep top wm pr) k u
      = weekMapCount wm k u + (if qualifiesFor top k u pr then 1 else 0) := by
  unfold trendStep qualifiesFor
  by_cases hc : top.contains pr.author_username = true
  · rw [if_pos hc]
    cases hm : pr.merged_at with
    | none => simp [hc, hm]
    | some t =>
      simp only [hm]
      by_cases hk : getWeekStartDay t = k
      · subst hk
        by_cases hu : pr.author_username = u
        · subst hu
          unfold weekMapCount
          rw [lookup_setR_self_int, Option.getD_some, lookup_setR_self]
          have hcm : pr.author_username ∈ top := by simpa using hc
          simp [hcm]
        · unfold weekMapCount
          rw [lookup_setR_self_int, Option.getD_some,
            lookup_setR_ne _ _ _ _ (Ne.symm hu)]
          have h2 : (pr.author_username == u) = false := by simp [hu]
          simp [h2]
      · unfold weekMapCount
        rw [lookup_setR_ne _ _ _ _ (Ne.symm hk)]
        have h2 : (getWeekStartDay t == k) = false := by simp [hk]
        simp [h2]
  · rw [if_neg hc]
    have hnm : pr.author_username ∉ top := by simpa using hc
    simp [hnm]

/-- Folding the bucketing step over a PR list adds the number of qualifying
PRs to every cell. -/
theorem weekMapCount_foldl (top : List String) (prs : List PRData) :
    ∀ (wm : List (Int × List (String × Nat))) (k : Int) (u : String),
    weekMapCount (prs.foldl (trendStep top) wm) k u
      = weekMapCount wm k u + prs.countP (qualifiesFor top k u) := by
  induction prs with
  | nil =>
    intro wm k u
    simp
  | cons pr rest ih =>
    intro wm k u
    rw [List.foldl_cons, ih, weekMapCount_trendStep, List.countP_cons]
    cases hq : qualifiesFor top k u pr <;> simp [hq] <;> omega

/-- The Monday starting the week of any instant: the result of getWeekStart
falls on a Monday, at most six days before the instant's day. -/
theorem getWeekStart_is_monday (t : Int) :
    utcWeekday (getWeekStart t) = 1 ∧ getWeekStartDay t ≤ dayNumber t ∧
    dayNumber t ≤ getWeekStartDay t + 6 := by
  unfold getWeekStart getWeekStartDay utcWeekday dayNumber
  dsimp only
  rw [Int.mul_fdiv_cancel_left _ (by norm_num)]
  generalize t.fdiv 86400000 = dn
  by_cases h : (dn + 4) % 7 = 0 <;> omega

/-- Counterexample to C9: a PR merged on Tuesday 2024-01-02 (day 19724,
weekday 2) and one merged the following Monday 2024-01-08 (day 19730,
weekday 1) do not both land in the Tuesday's week bucket: the week of the
Tuesday holds exactly one of the two, and their week keys differ — there is
no later Monday inside the same Monday-start ISO week as a Tuesday. -/
theorem trend_bucketing_following_monday_differs :
    utcWeekday (19724 * 86400000) = 2 ∧
    utcWeekday (19730 * 86400000) = 1 ∧
    dayNumber (19730 * 86400000) = dayNumber (19724 * 86400000) + 6 ∧
    weekMapCount (buildWeekMap
      [⟨"a", "t", 1, 1, 1, 1, some 0, some (19724 * 86400000), 0, []⟩,
       ⟨"a", "t", 1, 1, 1, 1, some 0, some (19730 * 86400000), 0, []⟩] ["a"])
      (getWeekStartDay (19724 * 86400000)) "a" = 1 ∧
    getWeekStart (19724 * 86400000) ≠ getWeekStart (19730 * 86400000) := by
  decide

/-- C9 amended: generateTrends buckets every qualifying PR (top-N author,
parseable merge date) into the Monday-start UTC week containing its merge
date, keyed by that week's Monday: the count of every weekMap cell (k, u)
is the number of PRs by u among the top-N whose merge date's week starts at
k, the week key is always the Monday at most six days before the merge
date — and, in particular, a PR merged on a Tuesday and one merged on the
Monday of the same ISO week (the immediately preceding Monday) both map to
that Monday's key. -/
theorem generateTrends_week_bucketing
    (prs : List PRData) (contributors : List (String × ContributorData))
    (top : Nat) (k : Int) (u : String) (t tu mo : Int)
    (htu : utcWeekday tu = 2) (hmo : utcWeekday mo = 1)
    (hadj : dayNumber tu = dayNumber mo + 1) :
    weekMapCount (generateTrendsWeekMap prs contributors top) k u =
      prs.countP (qualifiesFor
        (((analyzeEngineers contributors prs).take top).map
          (fun e => e.username)) k u) ∧
    (utcWeekday (getWeekStart t) = 1 ∧ getWeekStartDay t ≤ dayNumber t ∧
      dayNumber t ≤ getWeekStartDay t + 6) ∧
    getWeekStartDay tu = dayNumber mo ∧ getWeekStartDay mo = dayNumber mo := by
  refine ⟨?_, getWeekStart_is_monday t, ?_, ?_⟩
  · unfold generateTrendsWeekMap buildWeekMap
    rw [weekMapCount_foldl]
    simp [weekMapCount, List.lookup]
  · unfold getWeekStartDay
    dsimp only
    rw [htu]
    norm_num
    omega
  · unfold getWeekStartDay
    dsimp only
    rw [hmo]
    norm_num

/-- Witness for C9 amended: Tuesday 2024-01-02 and Monday 2024-01-01. -/
theorem generateTrends_week_bucketing_witness :
    utcWeekday (19724 * 86400000) = 2 ∧
    utcWeekday (19723 * 86400000) = 1 ∧
    dayNumber (19724 * 86400000) = dayNumber (19723 * 86400000) + 1 ∧
    (weekMapCount (generateTrendsWeekMap [] [] 5) 0 "a" =
      List.countP (qualifiesFor
        (((analyzeEngineers [] []).take 5).map (fun e => e.username)) 0 "a") [] ∧
    (utcWeekday (getWeekStart 0) = 1 ∧ getWeekStartDay 0 ≤ dayNumber 0 ∧
      dayNumber 0 ≤ getWeekStartDay 0 + 6) ∧
    getWeekStartDay (19724 * 86400000) = dayNumber (19723 * 86400000) ∧
    getWeekStartDay (19723 * 86400000) = dayNumber (19723 * 86400000)) :=
  ⟨by decide, by decide, by decide,
    generateTrends_week_bucketing [] [] 5 0 "a" 0 (19724 * 86400000)
      (19723 * 86400000) (by decide) (by decide) (by decide)⟩
